import Mathlib

/-!
Shallow embedding of `server/api.py` from f4hy/CookieS: a backend that walks a
cookiecutter variable document one field at a time (`/form` / `get_next_option`),
validates the collected answers, and publishes the generated project (`/create`).

Dictionaries are embedded as association lists (`List (String × _)`), which keep
the declared key order exactly as Python 3 `dict`s do.  Python exceptions are
embedded as `Except` values; HTTP and git side effects are made explicit as an
`Effect` trace so that frame claims can be stated.
-/

namespace CookieS

/-- One piece of a Jinja template string: literal text, or a reference
`cookiecutter.<key>` to a previously collected answer. -/
inductive TPart where
  | lit (s : String)
  | var (k : String)
deriving DecidableEq, Repr

/-- A default value in `cookiecutter.json` is a template string. -/
abbrev Template := List TPart

/-- A value of the variable document (`cc_context`): a template string, a list of
choice templates, or a nested mapping (used by cookiecutter conventions for
private keys).  Mirrors the JSON shapes `Dict[str, Any]` admits in `FormDetails`. -/
inductive CCValue where
  | str (t : Template)
  | choice (ts : List Template)
  | dict (entries : List (String × CCValue))
deriving Repr

/-- A rendered value, as produced by cookiecutter's renderer: every template has
been expanded to a plain string. -/
inductive RValue where
  | str (s : String)
  | list (ss : List String)
  | dict (entries : List (String × RValue))
deriving Repr

/-- Modelled from the spec: the template-expansion pass of the external renderer
(`StrictEnvironment` / Jinja, not under `src/`).  A reference to key `k`
substitutes the answer stored for `k` in `user_inputs`; a reference to an
unanswered or nonexistent key raises (strict-undefined), with no partial
output. -/
def renderTemplate (user_inputs : List (String × String)) : Template → Except String String
  | [] => .ok ""
  | TPart.lit s :: rest => (renderTemplate user_inputs rest).map (fun r => s ++ r)
  | TPart.var k :: rest =>
    match user_inputs.lookup k with
    | some v => (renderTemplate user_inputs rest).map (fun r => v ++ r)
    | none => .error (k ++ " is undefined")

/-- Renders every template of a choice list, failing on the first failure. -/
def renderTemplates (user_inputs : List (String × String)) : List Template → Except String (List String)
  | [] => .ok []
  | t :: ts => do
    let r ← renderTemplate user_inputs t
    let rs ← renderTemplates user_inputs ts
    .ok (r :: rs)

mutual

/-- Modelled from the spec: cookiecutter's `render_variable` (external library,
not under `src/`).  Renders a raw default value with the collected
`user_inputs` as the substitution context: strings are template-expanded,
lists are rendered element-wise, nested mappings are rendered entry-wise.
Any failure aborts the whole rendering. -/
def render_variable (user_inputs : List (String × String)) : CCValue → Except String RValue
  | .str t => (renderTemplate user_inputs t).map RValue.str
  | .choice ts => (renderTemplates user_inputs ts).map RValue.list
  | .dict es => (renderEntries user_inputs es).map RValue.dict

/-- Renders the entries of a nested mapping, failing on the first failure. -/
def renderEntries (user_inputs : List (String × String)) : List (String × CCValue) → Except String (List (String × RValue))
  | [] => .ok []
  | (k, v) :: rest => do
    let rv ← render_variable user_inputs v
    let rs ← renderEntries user_inputs rest
    .ok ((k, rv) :: rs)

end

/-- Embedding of `get_next_option` (`api.py`, lines 241-253): walk the keys of
`cc_context` in declared order; at the first key missing from `user_inputs`,
render its raw value against `user_inputs` and return it with `done = False`;
if no key is missing return `(None, None, True)`.  A rendering failure
propagates as the Python exception does. -/
def get_next_option : List (String × CCValue) → List (String × String) →
    Except String (Option String × Option RValue × Bool)
  | [], _ => .ok (none, none, true)
  | (key, value) :: rest, user_inputs =>
    if (user_inputs.lookup key).isSome then
      get_next_option rest user_inputs
    else
      (render_variable user_inputs value).map fun rv => (some key, some rv, false)

/-- The exception raised by the PyGithub library on a failed API call; the only
exception class `get_config` catches. -/
structure GithubException where
  status : Nat
  message : String
deriving DecidableEq, Repr

/-- Modelled from the spec: cookiecutter's `apply_overwrites_to_context`
(external library, not under `src/`).  Overrides replace matching keys'
default values in place; keys absent from the overrides are untouched; the
key order of the base document is preserved; override keys not present in
the base are ignored silently. -/
def apply_overwrites_to_context (context overrides : List (String × CCValue)) :
    List (String × CCValue) :=
  context.map fun kv =>
    match overrides.lookup kv.1 with
    | some ov => (kv.1, ov)
    | none => kv

/-- Embedding of `get_config` (`api.py`, lines 218-238).  The three remote reads
are passed in as their results: the base `cookiecutter.json` fetch (whose
failure propagates uncaught), the lookup of the organization's `.github`
repository, and the fetch of the override defaults file inside it.  A failed
`.github` lookup or a failed override fetch is swallowed and the base
document is returned unchanged. -/
def get_config (baseFetch : Except GithubException (List (String × CCValue)))
    (githubRepoFetch : Except GithubException Unit)
    (overrideFetch : Except GithubException (List (String × CCValue))) :
    Except GithubException (List (String × CCValue)) :=
  match baseFetch with
  | .error e => .error e
  | .ok context =>
    match githubRepoFetch with
    | .error _ => .ok context
    | .ok _ =>
      match overrideFetch with
      | .error _ => .ok context
      | .ok user_defaults => .ok (apply_overwrites_to_context context user_defaults)

/-- Embedding of the pydantic `FormDetails` body round-tripped through `/form`
and `/create`.  `template` is flattened into its two fields. -/
structure FormDetails where
  templateRepo : String
  templateDirectory : String
  org : String
  repo : String
  cc_context : List (String × CCValue)
  token : String
  user_inputs : List (String × String)
  next_key : Option String
  next_value : Option RValue
  done : Bool
deriving Repr

/-- An exception escaping the `/form` handler: a `GithubException` from the
config fetch, or a rendering failure from `get_next_option`. -/
inductive PyError where
  | github (e : GithubException)
  | render (msg : String)
deriving DecidableEq, Repr

/-- Embedding of `form` (`api.py`, lines 193-215).  `fetchConfig` stands for the
network call `get_config(...)` made only when the carried `cc_context` is
falsy (the empty dict); afterwards `get_next_option` is run on the carried
document and answers, and its fields are written back onto the details. -/
def form (details : FormDetails)
    (fetchConfig : Unit → Except GithubException (List (String × CCValue))) :
    Except PyError FormDetails :=
  match (if details.cc_context.isEmpty then fetchConfig () else .ok details.cc_context) with
  | .error e => .error (PyError.github e)
  | .ok ctx =>
    match get_next_option ctx details.user_inputs with
    | .error m => .error (PyError.render m)
    | .ok (nk, nv, d) =>
      .ok { details with cc_context := ctx, next_key := nk, next_value := nv, done := d }

/-- Embedding of `set(cc_context) - set(user_inputs)` in `validate_and_create`:
the document keys with no entry in `user_inputs` (document order; a Python
set's iteration order is arbitrary, the order is irrelevant to emptiness). -/
def missingValues (cc_context : List (String × CCValue))
    (user_inputs : List (String × String)) : List String :=
  (cc_context.map Prod.fst).filter fun k => (user_inputs.lookup k).isNone

/-- The rendering of the Python f-string `f"... {missing_values}"`: the missing
keys printed as a set literal (quoting elided). -/
def pySetRepr (keys : List String) : String :=
  "\x7b" ++ String.intercalate ", " keys ++ "\x7d"

/-- FastAPI's `HTTPException`, whose `str()` is `f"{status_code}: {detail}"`. -/
structure HTTPError where
  status_code : Nat
  detail : String
deriving DecidableEq, Repr

/-- One observable side effect of the publish pipeline: the repository-creation
API call, the cookiecutter generation into the temporary directory, or one of
the shelled-out git commands. -/
inductive Effect where
  | createRepo (org repo : String)
  | generate (templateRepo : String)
  | gitRun (cmd : String)
deriving DecidableEq, Repr

/-- The side effects `validate_and_create` performs once validation has passed
(`api.py`, lines 282-312), in order. -/
def publishEffects (details : FormDetails) : List Effect :=
  [Effect.createRepo details.org details.repo,
   Effect.generate details.templateRepo,
   Effect.gitRun "git init",
   Effect.gitRun "git config --local user.name",
   Effect.gitRun "git config --local user.email",
   Effect.gitRun "git remote add cc-origin",
   Effect.gitRun "git add .",
   Effect.gitRun "git commit",
   Effect.gitRun "git push cc-origin master -f"]

/-- Embedding of `validate_and_create` (`api.py`, lines 274-312): if any
document key lacks an answer, raise `HTTPException(400, ...)` naming the
missing keys, before any side effect; otherwise run the publish pipeline.
The result is paired with the trace of side effects performed. -/
def validate_and_create (details : FormDetails) :
    Except HTTPError Unit × List Effect :=
  let missing := missingValues details.cc_context details.user_inputs
  if missing.isEmpty then
    (.ok (), publishEffects details)
  else
    (.error ⟨400, "Invalid user input. Missing inputs for: " ++ pySetRepr missing⟩, [])

/-- Embedding of `create` (`api.py`, lines 259-271): run `validate_and_create`
under `except BaseException`, re-raising every exception — including the
`HTTPException(400)` raised by validation itself — as
`HTTPException(500, f"Error Occured: {error}")`, where `str()` of an
`HTTPException` is `f"{status_code}: {detail}"`. -/
def create (details : FormDetails) : Except HTTPError Unit × List Effect :=
  match validate_and_create details with
  | (.ok u, effects) => (.ok u, effects)
  | (.error e, effects) =>
    (.error ⟨500, "Error Occured: " ++ toString e.status_code ++ ": " ++ e.detail⟩, effects)

/-- The process-wide symmetric key (`APP_KEY`, `api.py` lines 60-62): an
environment override or the insecure default; its exact value is opaque here. -/
def APP_KEY : Nat := 1337

/-- Modelled from the spec: the `encrypt` half of the Fernet cipher from the
external `cryptography` library (not under `src/`): reversible symmetric
encryption under a process-wide key.  The explicit `iv` argument stands for
the cipher's per-call internal state, so that reversibility is proved for
every internal state. -/
def fernetEncrypt (key iv : Nat) (msg : List Nat) : List Nat :=
  iv :: msg.map fun b => b ^^^ key

/-- Modelled from the spec: the `decrypt` half of the Fernet cipher; `none`
models the `InvalidToken` failure on an input not produced by `encrypt`. -/
def fernetDecrypt (key : Nat) : List Nat → Option (List Nat)
  | [] => none
  | _ :: payload => some (payload.map fun b => b ^^^ key)

/-- The `token.encode()` step: a string as its sequence of code points. -/
def strEncode (s : String) : List Nat :=
  s.toList.map Char.toNat

/-- The `.decode()` step, inverse of `strEncode` on encoded strings. -/
def strDecode (l : List Nat) : String :=
  ⟨l.map Char.ofNat⟩

/-- Embedding of `encrypt_token` (`api.py`, lines 65-66):
`Fernet(APP_KEY).encrypt(token.encode()).decode()`, with the cipher's
per-call internal state `iv` explicit. -/
def encrypt_token (token : String) (iv : Nat) : List Nat :=
  fernetEncrypt APP_KEY iv (strEncode token)

/-- Embedding of `decrypt_token` (`api.py`, lines 69-71):
`Fernet(APP_KEY).decrypt(token.encode()).decode()` under the same
process-wide key (the `lru_cache` only memoizes this pure function). -/
def decrypt_token (token : List Nat) : Option String :=
  (fernetDecrypt APP_KEY token).map strDecode

/-! ### Helper lemmas shared by the claim theorems -/

/-- Dictionary membership: `lookup` succeeds exactly on the keys of the list. -/
theorem lookup_isSome_iff {β : Type} (l : List (String × β)) (k : String) :
    (l.lookup k).isSome ↔ k ∈ l.map Prod.fst := by
  induction l with
  | nil => simp
  | cons kv rest ih =>
    obtain ⟨k0, v0⟩ := kv
    by_cases h : k = k0
    · subst h; simp [List.lookup_cons]
    · have hb : (k == k0) = false := beq_false_of_ne h
      simp [List.lookup_cons, hb, ih, h]

/-- The terminal step: `get_next_option` answers `(None, None, True)` exactly
when every document key already has an entry in `user_inputs`. -/
theorem get_next_option_done_iff (doc : List (String × CCValue))
    (inputs : List (String × String)) :
    get_next_option doc inputs = .ok (none, none, true) ↔
      ∀ k ∈ doc.map Prod.fst, (inputs.lookup k).isSome := by
  induction doc with
  | nil => simp [get_next_option]
  | cons kv rest ih =>
    obtain ⟨k, v⟩ := kv
    by_cases h : (inputs.lookup k).isSome
    · have step : get_next_option ((k, v) :: rest) inputs = get_next_option rest inputs := by
        simp [get_next_option, h]
      rw [step, ih]
      constructor
      · intro hall k' hk'
        rw [List.map_cons, List.mem_cons] at hk'
        cases hk' with
        | inl he => exact he ▸ h
        | inr ht => exact hall k' ht
      · intro hall k' hk'
        exact hall k' (by simp [hk'])
    · simp only [get_next_option, h, Bool.false_eq_true, if_false]
      constructor
      · intro hco
        cases hrv : render_variable inputs v <;> simp [hrv, Except.map] at hco
      · intro hall
        exact absurd (hall k (by simp)) h

/-- The prompting step: when some key is unanswered, `get_next_option` renders
the first such key's raw value and reports it with `done = False`. -/
theorem get_next_option_first_missing (doc : List (String × CCValue))
    (inputs : List (String × String)) (k : String) (v : CCValue)
    (h : doc.find? (fun kv => (inputs.lookup kv.1).isNone) = some (k, v)) :
    get_next_option doc inputs =
      (render_variable inputs v).map fun rv => (some k, some rv, false) := by
  induction doc with
  | nil => simp at h
  | cons kv rest ih =>
    obtain ⟨k0, v0⟩ := kv
    by_cases hm : (inputs.lookup k0).isSome
    · obtain ⟨w, hw⟩ := Option.isSome_iff_exists.mp hm
      rw [List.find?_cons] at h
      simp only [hw, Option.isNone_some] at h
      simpa [get_next_option, hm] using ih h
    · have hn : inputs.lookup k0 = none := Option.not_isSome_iff_eq_none.mp hm
      rw [List.find?_cons] at h
      simp only [hn, Option.isNone_none] at h
      injection h with h'
      cases h'
      simp [get_next_option, hn]

/-! ### Claim theorems -/

/-- C1: for every variable document and answer set, `get_next_option` returns
the first key in declared order with no answer, together with that key's
rendered default and `done = False`; and it returns `(None, None, True)`
exactly when every document key has an answer — in particular immediately so
when the answer set already covers every key. -/
theorem get_next_option_resolution_spec (cc_context : List (String × CCValue))
    (user_inputs : List (String × String)) :
    (get_next_option cc_context user_inputs = .ok (none, none, true) ↔
      ∀ k ∈ cc_context.map Prod.fst, (user_inputs.lookup k).isSome) ∧
    ∀ k v, cc_context.find? (fun kv => (user_inputs.lookup kv.1).isNone) = some (k, v) →
      get_next_option cc_context user_inputs =
        (render_variable user_inputs v).map fun rv => (some k, some rv, false) :=
  ⟨get_next_option_done_iff cc_context user_inputs,
   fun k v h => get_next_option_first_missing cc_context user_inputs k v h⟩

/-- Witness for C1 at a concrete document and answer set: with `"a"` answered,
the resolver prompts `"b"` with its default rendered from the answer. -/
theorem get_next_option_resolution_spec_witness :
    get_next_option [("a", CCValue.str [TPart.lit "A"]), ("b", CCValue.str [TPart.var "a"])]
        [("a", "x")] = .ok (some "b", some (RValue.str "x"), false) := by
  have h := (get_next_option_resolution_spec
    [("a", CCValue.str [TPart.lit "A"]), ("b", CCValue.str [TPart.var "a"])]
    [("a", "x")]).2 "b" (CCValue.str [TPart.var "a"]) rfl
  exact h.trans rfl

/-- C3: rendering the next default substitutes the literal answer of every
referenced already-answered key; a reference to an unanswered or nonexistent
key makes the rendering fail, and `get_next_option` propagates that failure
unchanged — no partial rendering is returned. -/
theorem render_reference_spec :
    (∀ (user_inputs : List (String × String)) (a b k v : String),
       user_inputs.lookup k = some v →
       renderTemplate user_inputs [TPart.lit a, TPart.var k, TPart.lit b] =
         .ok (a ++ v ++ b)) ∧
    (∀ (user_inputs : List (String × String)) (t : Template) (k : String),
       TPart.var k ∈ t → user_inputs.lookup k = none →
       ∃ e, renderTemplate user_inputs t = .error e) ∧
    (∀ (cc_context : List (String × CCValue)) (user_inputs : List (String × String))
       (k : String) (v : CCValue) (e : String),
       cc_context.find? (fun kv => (user_inputs.lookup kv.1).isNone) = some (k, v) →
       render_variable user_inputs v = .error e →
       get_next_option cc_context user_inputs = .error e) := by
  refine ⟨?_, ?_, ?_⟩
  · intro user_inputs a b k v h
    simp [renderTemplate, h, Except.map, String.append_assoc]
  · intro user_inputs t k hmem hnone
    induction t with
    | nil => simp at hmem
    | cons p rest ih =>
      cases p with
      | lit s =>
        have hm : TPart.var k ∈ rest := by
          rcases List.mem_cons.mp hmem with h | h
          · exact absurd h (by simp)
          · exact h
        obtain ⟨e, he⟩ := ih hm
        exact ⟨e, by simp [renderTemplate, he, Except.map]⟩
      | var k' =>
        by_cases hk : k' = k
        · subst hk
          exact ⟨k' ++ " is undefined", by simp [renderTemplate, hnone]⟩
        · have hm : TPart.var k ∈ rest := by
            rcases List.mem_cons.mp hmem with h | h
            · injection h with h'; exact absurd h'.symm hk
            · exact h
          cases hl : user_inputs.lookup k' with
          | none => exact ⟨k' ++ " is undefined", by simp [renderTemplate, hl]⟩
          | some w =>
            obtain ⟨e, he⟩ := ih hm
            exact ⟨e, by simp [renderTemplate, hl, he, Except.map]⟩
  · intro cc_context user_inputs k v e hfind hrender
    rw [get_next_option_first_missing cc_context user_inputs k v hfind, hrender]
    rfl

/-- Witness for C3 at concrete inputs: a reference to the answered key `"a"`
substitutes `"x"`; a reference to the unanswered key `"b"` errors, and the
resolver surfaces exactly that error. -/
theorem render_reference_spec_witness :
    renderTemplate [("a", "x")] [TPart.lit "p", TPart.var "a", TPart.lit "q"] =
      .ok ("p" ++ "x" ++ "q") ∧
    (∃ e, renderTemplate [("a", "x")] [TPart.var "b"] = .error e) ∧
    get_next_option [("slug", CCValue.str [TPart.var "b"])] [("a", "x")] =
      .error ("b" ++ " is undefined") := by
  refine ⟨render_reference_spec.1 [("a", "x")] "p" "q" "a" "x" rfl,
    render_reference_spec.2.1 [("a", "x")] [TPart.var "b"] "b" (by simp) rfl,
    render_reference_spec.2.2 [("slug", CCValue.str [TPart.var "b"])] [("a", "x")]
      "slug" (CCValue.str [TPart.var "b"]) ("b" ++ " is undefined") rfl rfl⟩

/-- C4 counterexample: the key `"_private"`, whose value is a nested mapping
and which carries the conventional private prefix, has no answer, yet
`get_next_option` returns it as `next_key` — it is not excluded from
prompting. -/
theorem private_dict_key_prompted :
    get_next_option [("_private", CCValue.dict [])] [] =
      .ok (some "_private", some (RValue.dict []), false) := rfl

/-- C4 amended: `get_next_option` excludes no key at all — any unanswered key
whose value is a nested mapping (whatever its name) is returned as
`next_key` whenever it is reached, exactly like a string-valued key. -/
theorem unanswered_dict_key_prompted (user_inputs : List (String × String))
    (k : String) (es : List (String × CCValue)) (rest : List (String × CCValue))
    (rv : RValue) (h1 : user_inputs.lookup k = none)
    (h2 : render_variable user_inputs (CCValue.dict es) = .ok rv) :
    get_next_option ((k, CCValue.dict es) :: rest) user_inputs =
      .ok (some k, some rv, false) := by
  simp [get_next_option, h1, h2, Except.map]

/-- Witness for the amended C4 at a concrete document: the private nested
mapping key is prompted. -/
theorem unanswered_dict_key_prompted_witness :
    get_next_option [("_private", CCValue.dict [("x", CCValue.str [TPart.lit "1"])])] [] =
      .ok (some "_private",
        some (RValue.dict [("x", RValue.str "1")]), false) :=
  unanswered_dict_key_prompted [] "_private" [("x", CCValue.str [TPart.lit "1"])] []
    (RValue.dict [("x", RValue.str "1")]) rfl rfl

/-- C2: evaluation of `/create` at a form whose answers miss the document key
`"name"`.  Validation itself raises the intended `HTTPException(400)` naming
exactly the missing key, before any side effect (empty effect trace) — but
`create`'s `except BaseException` catches that very exception and re-raises
it with status 500, so the client observes 500, not 400. -/
theorem create_swallows_validation_400 :
    validate_and_create
      { templateRepo := "audreyr/cookiecutter-pypackage", templateDirectory := "",
        org := "o", repo := "r",
        cc_context := [("name", CCValue.str [TPart.lit "default"])],
        token := "t", user_inputs := [], next_key := none, next_value := none,
        done := true } =
      (.error ⟨400, "Invalid user input. Missing inputs for: \x7bname\x7d"⟩, []) ∧
    create
      { templateRepo := "audreyr/cookiecutter-pypackage", templateDirectory := "",
        org := "o", repo := "r",
        cc_context := [("name", CCValue.str [TPart.lit "default"])],
        token := "t", user_inputs := [], next_key := none, next_value := none,
        done := true } =
      (.error ⟨500, "Error Occured: 400: Invalid user input. Missing inputs for: \x7bname\x7d"⟩,
        []) :=
  ⟨rfl, rfl⟩

/-- C5: decrypting an encrypted token under the same process-wide key recovers
the original token exactly, for every input string and every internal cipher
state. -/
theorem decrypt_encrypt_token_roundtrip (token : String) (iv : Nat) :
    decrypt_token (encrypt_token token iv) = some token := by
  have hfun : ((fun b => b ^^^ APP_KEY) ∘ (fun b => b ^^^ APP_KEY) ∘ Char.toNat) = Char.toNat := by
    funext c
    simp [Function.comp, Nat.xor_cancel_right]
  simp only [decrypt_token, encrypt_token, fernetEncrypt, fernetDecrypt, strEncode, strDecode,
    List.map_map, Option.map_some, hfun]
  have hid : (Char.ofNat ∘ Char.toNat) = id := funext fun c => Char.ofNat_toNat c
  simp [strDecode, List.map_map, hid]

/-- C7: merging organization overrides into a base document replaces the values
of shared keys, leaves keys absent from the overrides untouched, preserves
the base key order exactly, and silently ignores override keys not in the
base. -/
theorem apply_overwrites_spec (context overrides : List (String × CCValue)) :
    ((apply_overwrites_to_context context overrides).map Prod.fst =
      context.map Prod.fst) ∧
    (∀ k v w, context.lookup k = some v → overrides.lookup k = some w →
      (apply_overwrites_to_context context overrides).lookup k = some w) ∧
    (∀ k v, context.lookup k = some v → overrides.lookup k = none →
      (apply_overwrites_to_context context overrides).lookup k = some v) ∧
    (∀ k, context.lookup k = none →
      (apply_overwrites_to_context context overrides).lookup k = none) := by
  refine ⟨?_, ?_, ?_, ?_⟩
  · induction context with
    | nil => rfl
    | cons kv rest ih =>
      obtain ⟨k0, v0⟩ := kv
      cases h : overrides.lookup k0 <;>
        simp [apply_overwrites_to_context, h] <;>
        simpa [apply_overwrites_to_context] using ih
  · intro k v w hc ho
    induction context with
    | nil => simp at hc
    | cons kv rest ih =>
      obtain ⟨k0, v0⟩ := kv
      by_cases hk : k = k0
      · subst hk
        simp [apply_overwrites_to_context, List.lookup_cons, ho]
      · have hb : (k == k0) = false := beq_false_of_ne hk
        rw [List.lookup_cons] at hc
        simp only [hb] at hc
        cases h0 : overrides.lookup k0 <;>
          · rw [show apply_overwrites_to_context ((k0, v0) :: rest) overrides =
                (match overrides.lookup k0 with
                 | some ov => (k0, ov)
                 | none => (k0, v0)) :: apply_overwrites_to_context rest overrides from rfl]
            rw [h0, List.lookup_cons]
            simpa [hb] using ih hc
  · intro k v hc ho
    induction context with
    | nil => simp at hc
    | cons kv rest ih =>
      obtain ⟨k0, v0⟩ := kv
      by_cases hk : k = k0
      · subst hk
        rw [List.lookup_cons] at hc
        simp [beq_self_eq_true] at hc
        subst hc
        simp [apply_overwrites_to_context, List.lookup_cons, ho]
      · have hb : (k == k0) = false := beq_false_of_ne hk
        rw [List.lookup_cons] at hc
        simp only [hb] at hc
        cases h0 : overrides.lookup k0 <;>
          · rw [show apply_overwrites_to_context ((k0, v0) :: rest) overrides =
                (match overrides.lookup k0 with
                 | some ov => (k0, ov)
                 | none => (k0, v0)) :: apply_overwrites_to_context rest overrides from rfl]
            rw [h0, List.lookup_cons]
            simpa [hb] using ih hc
  · intro k hc
    induction context with
    | nil => rfl
    | cons kv rest ih =>
      obtain ⟨k0, v0⟩ := kv
      by_cases hk : k = k0
      · subst hk
        rw [List.lookup_cons] at hc
        simp [beq_self_eq_true] at hc
      · have hb : (k == k0) = false := beq_false_of_ne hk
        rw [List.lookup_cons] at hc
        simp only [hb] at hc
        cases h0 : overrides.lookup k0 <;>
          · rw [show apply_overwrites_to_context ((k0, v0) :: rest) overrides =
                (match overrides.lookup k0 with
                 | some ov => (k0, ov)
                 | none => (k0, v0)) :: apply_overwrites_to_context rest overrides from rfl]
            rw [h0, List.lookup_cons]
            simpa [hb] using ih hc

/-- Witness for C7 at the spec's example: merging `{"b": "X"}` into
`{"a": "1", "b": "2", "c": "3"}` yields `{"a": "1", "b": "X", "c": "3"}` in
order, and the merged value of `"b"` is the override. -/
theorem apply_overwrites_spec_witness :
    apply_overwrites_to_context
        [("a", CCValue.str [TPart.lit "1"]), ("b", CCValue.str [TPart.lit "2"]),
         ("c", CCValue.str [TPart.lit "3"])]
        [("b", CCValue.str [TPart.lit "X"])] =
      [("a", CCValue.str [TPart.lit "1"]), ("b", CCValue.str [TPart.lit "X"]),
       ("c", CCValue.str [TPart.lit "3"])] ∧
    (apply_overwrites_to_context
        [("a", CCValue.str [TPart.lit "1"]), ("b", CCValue.str [TPart.lit "2"]),
         ("c", CCValue.str [TPart.lit "3"])]
        [("b", CCValue.str [TPart.lit "X"])]).lookup "b" =
      some (CCValue.str [TPart.lit "X"]) :=
  ⟨rfl,
   (apply_overwrites_spec
      [("a", CCValue.str [TPart.lit "1"]), ("b", CCValue.str [TPart.lit "2"]),
       ("c", CCValue.str [TPart.lit "3"])]
      [("b", CCValue.str [TPart.lit "X"])]).2.1 "b"
     (CCValue.str [TPart.lit "2"]) (CCValue.str [TPart.lit "X"]) rfl rfl⟩

/-- C8: when the round-tripped session already carries a variable document,
`/form` never consults the fetcher — its result is identical for any two
fetchers — and it is exactly the field resolver applied to the carried
document and answers, written back onto the session. -/
theorem form_resolution_is_local (details : FormDetails)
    (h : details.cc_context ≠ [])
    (fetchConfig fetchConfig' : Unit → Except GithubException (List (String × CCValue))) :
    form details fetchConfig = form details fetchConfig' ∧
    form details fetchConfig =
      (match get_next_option details.cc_context details.user_inputs with
       | .error m => .error (PyError.render m)
       | .ok (nk, nv, d) =>
         .ok { details with next_key := nk, next_value := nv, done := d }) := by
  have hne : details.cc_context.isEmpty = false := by
    cases hc : details.cc_context with
    | nil => exact absurd hc h
    | cons a l => rfl
  constructor
  · simp [form, hne]
  · simp [form, hne]

/-- Witness for C8 at a concrete session: a fetcher that would succeed and one
that would fail produce the same `/form` response, because neither is
consulted. -/
theorem form_resolution_is_local_witness :
    form
      { templateRepo := "audreyr/cookiecutter-pypackage", templateDirectory := "",
        org := "o", repo := "r",
        cc_context := [("a", CCValue.str [TPart.lit "1"])],
        token := "t", user_inputs := [], next_key := none, next_value := none,
        done := false }
      (fun _ => .ok []) =
    form
      { templateRepo := "audreyr/cookiecutter-pypackage", templateDirectory := "",
        org := "o", repo := "r",
        cc_context := [("a", CCValue.str [TPart.lit "1"])],
        token := "t", user_inputs := [], next_key := none, next_value := none,
        done := false }
      (fun _ => .error ⟨404, "no network"⟩) :=
  (form_resolution_is_local
    { templateRepo := "audreyr/cookiecutter-pypackage", templateDirectory := "",
      org := "o", repo := "r",
      cc_context := [("a", CCValue.str [TPart.lit "1"])],
      token := "t", user_inputs := [], next_key := none, next_value := none,
      done := false }
    (by simp) (fun _ => .ok []) (fun _ => .error ⟨404, "no network"⟩)).1

/-- C9: when the organization has no `.github` repository, or has one but no
override defaults file at the conventional path, `get_config` succeeds and
returns the base document unchanged — the lookup failure is swallowed, never
surfaced. -/
theorem get_config_swallows_override_failure
    (base : List (String × CCValue)) (e : GithubException)
    (overrideFetch : Except GithubException (List (String × CCValue))) :
    get_config (.ok base) (.error e) overrideFetch = .ok base ∧
    get_config (.ok base) (.ok ()) (.error e) = .ok base :=
  ⟨rfl, rfl⟩

/-- C10 counterexample: with document `{"a": "1"}` and answers
`{"a": "x", "zzz": "y"}`, resolution reports `done = True` and `/create`'s
validation finds nothing missing, yet the answer set contains the key
`"zzz"`, absent from the document — the key sets are not equal at
completion. -/
theorem completion_allows_extra_keys :
    get_next_option [("a", CCValue.str [TPart.lit "1"])] [("a", "x"), ("zzz", "y")] =
      .ok (none, none, true) ∧
    missingValues [("a", CCValue.str [TPart.lit "1"])] [("a", "x"), ("zzz", "y")] = [] ∧
    "zzz" ∈ ([("a", "x"), ("zzz", "y")].map Prod.fst) ∧
    "zzz" ∉ ([("a", CCValue.str [TPart.lit "1"])].map Prod.fst) :=
  ⟨rfl, rfl, by decide, by decide⟩

/-- C10 amended: completion (`done = True` from the resolver, equivalently a
passing `/create` validation) guarantees that every document key has an
answer; the answer set may still carry extra keys, so its key set equals the
document's only under the additional assumption that it contains no key
outside the document. -/
theorem completion_key_superset (cc_context : List (String × CCValue))
    (user_inputs : List (String × String)) :
    (get_next_option cc_context user_inputs = .ok (none, none, true) →
      ∀ k ∈ cc_context.map Prod.fst, k ∈ user_inputs.map Prod.fst) ∧
    (missingValues cc_context user_inputs = [] ↔
      ∀ k ∈ cc_context.map Prod.fst, (user_inputs.lookup k).isSome) ∧
    (get_next_option cc_context user_inputs = .ok (none, none, true) →
      (∀ k ∈ user_inputs.map Prod.fst, k ∈ cc_context.map Prod.fst) →
      ∀ k, k ∈ cc_context.map Prod.fst ↔ k ∈ user_inputs.map Prod.fst) := by
  refine ⟨?_, ?_, ?_⟩
  · intro hdone k hk
    exact (lookup_isSome_iff user_inputs k).mp
      ((get_next_option_done_iff cc_context user_inputs).mp hdone k hk)
  · simp only [missingValues, List.filter_eq_nil_iff, List.mem_map]
    constructor
    · intro hall k hk
      have := hall k (by simpa using hk)
      simpa [Option.isNone_iff_eq_none, Option.isSome_iff_ne_none] using this
    · intro hall k hk
      have := hall k (by simpa using hk)
      simpa [Option.isNone_iff_eq_none, Option.isSome_iff_ne_none] using this
  · intro hdone hsub k
    constructor
    · intro hk
      exact (lookup_isSome_iff user_inputs k).mp
        ((get_next_option_done_iff cc_context user_inputs).mp hdone k hk)
    · intro hk
      exact hsub k hk

/-- Witness for the amended C10 at a concrete completed session with no extra
keys: the key sets coincide. -/
theorem completion_key_superset_witness :
    "a" ∈ ([("a", CCValue.str [TPart.lit "1"])].map Prod.fst) ↔
      "a" ∈ ([("a", "x")].map Prod.fst) :=
  (completion_key_superset [("a", CCValue.str [TPart.lit "1"])] [("a", "x")]).2.2
    rfl (by decide) "a"

end CookieS
